import Mathlib

/-!
Verification of the grd-landing identity-resolution and valuation pipeline.

The JavaScript sources (api/price.js, api/identify.js and their historical
iterations) are shallowly embedded below.  JavaScript strings are modelled as
`List Char`; JavaScript numbers appearing in the pipeline are modelled as `ℚ`
(every JSON number is finite), with an explicit `JSNum` type where the code
distinguishes non-finite values (`isFinite` checks in `convert`).  Absent or
null fields are `Option`s.  A JavaScript stable `Array.prototype.sort(cmp)`
with comparator `(a, b) => key(b) - key(a)` is modelled by
`List.insertionSort (fun a b => key b ≤ key a)`, which is stable and sorts
descending by `key`, matching the ECMAScript requirement that `sort` is
stable.  External `fetch` calls are modelled by passing the fetched payload
(or its failure) as an explicit argument.  Debug-object instrumentation,
which only mirrors values already present in the result, is not modelled.
-/

namespace GrdLanding

/-- JavaScript strings are sequences of characters. -/
abbrev Str := List Char

/-- ASCII lower-casing of one character, as `String.prototype.toLowerCase`
acts on the ASCII range used by the pipeline. -/
def lowerChar (c : Char) : Char :=
  if 65 ≤ c.toNat ∧ c.toNat ≤ 90 then Char.ofNat (c.toNat + 32) else c

/-- Model of `s.toLowerCase()`. -/
def jsLower (s : Str) : Str := s.map lowerChar

/-- Model of `s.trim()`: strip whitespace from both ends. -/
def jsTrim (s : Str) : Str :=
  ((s.dropWhile Char.isWhitespace).reverse.dropWhile Char.isWhitespace).reverse

/-- `strPrefixOf sub hay` holds when `sub` starts `hay`. -/
def strPrefixOf : Str → Str → Bool
  | [], _ => true
  | _ :: _, [] => false
  | a :: as, b :: bs => a == b && strPrefixOf as bs

/-- Model of `hay.includes(sub)`. -/
def jsIncludes : Str → Str → Bool
  | [], sub => sub.isEmpty
  | c :: t, sub => strPrefixOf sub (c :: t) || jsIncludes t sub

/-- Model of `x || d` for an optional string: `null`, `undefined` and the
empty string are falsy. -/
def jsOrStr (o : Option Str) (d : Str) : Str :=
  match o with
  | none => d
  | some s => if s = [] then d else s

/-- Model of `x || d` for an optional number: `null`, `undefined` and `0`
are falsy. -/
def jsOrQ (o : Option ℚ) (d : ℚ) : ℚ :=
  match o with
  | none => d
  | some q => if q = 0 then d else q

/-- Model of `String(x)` for a nullable string: `String(null)` is the
four-character string `"null"`. -/
def jsStrOfOptStr : Option Str → Str
  | none => "null".data
  | some s => s

/-- `clamp` from the handlers: `Math.max(a, Math.min(b, n))`. -/
def clamp (n a b : ℚ) : ℚ := max a (min b n)

/-- Accumulator-based splitting of a string into maximal runs of
non-whitespace characters. -/
def wsTokensAux : Str → Str → List Str
  | cur, [] => if cur = [] then [] else [cur.reverse]
  | cur, c :: cs =>
    if c.isWhitespace then
      (if cur = [] then wsTokensAux [] cs else cur.reverse :: wsTokensAux [] cs)
    else wsTokensAux (c :: cur) cs

/-- Model of `s.split(/\s+/).filter(Boolean)`. -/
def wsTokens (s : Str) : List Str := wsTokensAux [] s

/-- `normalizeCollectorNumber` (identify.js, part_000, part_003):
`"11/108" -> "11"`, falsy and whitespace-only inputs become null. -/
def normalizeCollectorNumber (raw : Option Str) : Option Str :=
  match raw with
  | none => none
  | some s =>
    if s = [] then none
    else
      let t := jsTrim s
      if t = [] then none
      else if t.contains '/' then some (jsTrim (t.takeWhile (· ≠ '/')))
      else some t

/-- Stable descending sort by a key, the model of
`list.sort((a, b) => key(b) - key(a))`. -/
def sortByKeyDesc {α β : Type} [LinearOrder β] (key : α → β) (l : List α) : List α :=
  List.insertionSort (fun a b => key b ≤ key a) l

theorem sortByKeyDesc_perm {α β : Type} [LinearOrder β] (key : α → β) (l : List α) :
    (sortByKeyDesc key l).Perm l :=
  List.perm_insertionSort _ l

theorem sortByKeyDesc_sorted {α β : Type} [LinearOrder β] (key : α → β) (l : List α) :
    (sortByKeyDesc key l).Pairwise (fun a b => key b ≤ key a) := by
  haveI : IsTotal α (fun a b => key b ≤ key a) := ⟨fun a b => le_total (key b) (key a)⟩
  haveI : IsTrans α (fun a b => key b ≤ key a) := ⟨fun _ _ _ hab hbc => le_trans hbc hab⟩
  exact List.sorted_insertionSort _ l

/-- The head of the stable descending sort is the first listed element when
that element strictly out-scores every other element. -/
theorem sortByKeyDesc_head_dominant {α β : Type} [LinearOrder β] (key : α → β)
    (x : α) (rest : List α) (h : ∀ y ∈ rest, key y < key x) :
    (sortByKeyDesc key (x :: rest)).head? = some x := by
  have hperm := sortByKeyDesc_perm key (x :: rest)
  have hsorted := sortByKeyDesc_sorted key (x :: rest)
  cases hs : sortByKeyDesc key (x :: rest) with
  | nil =>
    have := hperm.length_eq
    rw [hs] at this
    simp at this
  | cons hd t =>
    rw [hs] at hperm hsorted
    have hhd : hd ∈ x :: rest := hperm.subset (List.mem_cons_self hd t)
    rcases List.mem_cons.mp hhd with hEq | hMem
    · simp [hEq]
    · exfalso
      have hlt := h hd hMem
      have hx : x ∈ hd :: t := hperm.mem_iff.mpr (List.mem_cons_self x rest)
      rcases List.mem_cons.mp hx with hEq2 | hMem2
      · exact absurd (hEq2 ▸ hlt) (lt_irrefl _)
      · have hle : key x ≤ key hd := (List.pairwise_cons.mp hsorted).1 x hMem2
        exact absurd (lt_of_le_of_lt hle hlt) (lt_irrefl _)

/-! ### Currency conversion (`convert`, api/price.js lines 56-75 and 319-338,
part_004 lines 86-105; the three iterations are textually identical). -/

/-- A JavaScript number: finite (a rational) or one of the non-finite
values recognised by `isFinite`. -/
inductive JSNum where
  | fin (q : ℚ)
  | nan
  | posInf
  | negInf
deriving DecidableEq

/-- Model of `isFinite`. -/
def JSNum.isFinite : JSNum → Bool
  | .fin _ => true
  | _ => false

/-- The ECB rates object `{ base: "EUR", GBP, USD }`. -/
structure Rates where
  GBP : ℚ
  USD : ℚ
deriving DecidableEq

/-- The `toEUR` helper inside `convert`. -/
def toEUR (amt : ℚ) (ccy : Str) (rates : Rates) : ℚ :=
  if ccy = "EUR".data then amt
  else if ccy = "GBP".data then amt / rates.GBP
  else if ccy = "USD".data then amt / rates.USD
  else amt

/-- The `fromEUR` helper inside `convert`. -/
def fromEUR (amt : ℚ) (ccy : Str) (rates : Rates) : ℚ :=
  if ccy = "EUR".data then amt
  else if ccy = "GBP".data then amt * rates.GBP
  else if ccy = "USD".data then amt * rates.USD
  else amt

/-- `convert(amount, from, to, rates)`: null and non-finite amounts give
null, equal currencies return the amount, otherwise the amount is routed
through the EUR base. -/
def convert (amount : Option JSNum) (fromC toC : Str) (rates : Rates) :
    Option JSNum :=
  match amount with
  | some (.fin q) =>
    if fromC = toC then some (.fin q)
    else some (.fin (fromEUR (toEUR q fromC rates) toC rates))
  | some _ => none
  | none => none

theorem eur_ne_gbp : ("EUR".data : Str) ≠ "GBP".data := by decide

theorem eur_ne_usd : ("EUR".data : Str) ≠ "USD".data := by decide

theorem gbp_ne_eur : ("GBP".data : Str) ≠ "EUR".data := by decide

theorem gbp_ne_usd : ("GBP".data : Str) ≠ "USD".data := by decide

theorem usd_ne_eur : ("USD".data : Str) ≠ "EUR".data := by decide

theorem usd_ne_gbp : ("USD".data : Str) ≠ "GBP".data := by decide

/-- C9: for every finite amount, currencies A, B among EUR/GBP/USD and
positive GBP and USD rates, converting A→B and then B→A through the EUR
base returns the original amount (exactly, in the rational model, hence
within floating tolerance). -/
theorem c9_convert_round_trip (x : ℚ) (A B : Str) (rates : Rates)
    (hA : A = "EUR".data ∨ A = "GBP".data ∨ A = "USD".data)
    (hB : B = "EUR".data ∨ B = "GBP".data ∨ B = "USD".data)
    (hG : 0 < rates.GBP) (hU : 0 < rates.USD) :
    convert (convert (some (.fin x)) A B rates) B A rates = some (.fin x) := by
  have hG' : rates.GBP ≠ 0 := ne_of_gt hG
  have hU' : rates.USD ≠ 0 := ne_of_gt hU
  rcases hA with rfl | rfl | rfl <;> rcases hB with rfl | rfl | rfl <;>
    simp [convert, toEUR, fromEUR, eur_ne_gbp, eur_ne_usd, gbp_ne_eur,
      gbp_ne_usd, usd_ne_eur, usd_ne_gbp, div_mul_cancel₀, mul_div_cancel_right₀,
      hG', hU']

/-- Witness for C9 at a concrete input. -/
theorem c9_convert_round_trip_witness :
    convert (convert (some (.fin 5)) "GBP".data "USD".data ⟨4/5, 6/5⟩)
      "USD".data "GBP".data ⟨4/5, 6/5⟩ = some (.fin 5) :=
  c9_convert_round_trip 5 _ _ _ (Or.inr (Or.inl rfl)) (Or.inr (Or.inr rfl))
    (by norm_num) (by norm_num)

/-- C10: `convert` is total at its interface — null and non-finite amounts
give null for every rates object, equal currencies return the amount
unchanged, and a currency outside EUR/GBP/USD passes through both EUR legs
unchanged. -/
theorem c10_convert_total (rates : Rates) (fromC toC : Str) :
    (convert none fromC toC rates = none) ∧
    (∀ a : JSNum, a.isFinite = false → convert (some a) fromC toC rates = none) ∧
    (∀ q : ℚ, convert (some (.fin q)) fromC fromC rates = some (.fin q)) ∧
    (∀ q : ℚ, ∀ c : Str, c ≠ "EUR".data → c ≠ "GBP".data → c ≠ "USD".data →
      toEUR q c rates = q ∧ fromEUR q c rates = q) := by
  refine ⟨rfl, ?_, ?_, ?_⟩
  · intro a ha
    cases a with
    | fin q => simp [JSNum.isFinite] at ha
    | nan => rfl
    | posInf => rfl
    | negInf => rfl
  · intro q
    simp [convert]
  · intro q c h1 h2 h3
    constructor
    · simp [toEUR, h1, h2, h3]
    · simp [fromEUR, h1, h2, h3]

/-- Witness for C10 at concrete inputs. -/
theorem c10_convert_total_witness :
    convert none "GBP".data "USD".data ⟨0.86, 1.08⟩ = none ∧
    convert (some .nan) "GBP".data "USD".data ⟨0.86, 1.08⟩ = none ∧
    convert (some (.fin 7)) "GBP".data "GBP".data ⟨0.86, 1.08⟩ = some (.fin 7) ∧
    toEUR 7 "JPY".data ⟨0.86, 1.08⟩ = 7 ∧ fromEUR 7 "JPY".data ⟨0.86, 1.08⟩ = 7 := by
  obtain ⟨h1, h2, h3, h4⟩ := c10_convert_total ⟨0.86, 1.08⟩ "GBP".data "USD".data
  exact ⟨h1, h2 .nan rfl, h3 7,
    (h4 7 "JPY".data (by decide) (by decide) (by decide)).1,
    (h4 7 "JPY".data (by decide) (by decide) (by decide)).2⟩

/-! ### Valuation engine: uplift curve and expected value.
`upliftMultiplier` is identical in all iterations.  The first price handler
(api/price.js lines 205-224) renormalizes the clamped probabilities by their
sum; the later iterations (api/price.js lines 516-532, part_003 lines
331-347, part_004 lines 229-243) use the clamped probabilities directly. -/

/-- One entry of the grade distribution, `{ grade, prob }`, either field
possibly absent. -/
structure GradeEntry where
  grade : Option ℚ
  prob : Option ℚ
deriving DecidableEq

/-- `upliftMultiplier(grade)` — conservative uplift curve. -/
def upliftMultiplier (grade : ℚ) : ℚ :=
  if 10 ≤ grade then 3.0
  else if 9.5 ≤ grade then 1.9
  else if 9.0 ≤ grade then 1.35
  else if 8.5 ≤ grade then 1.12
  else if 8.0 ≤ grade then 1.08
  else 1.02

/-- `clamp(Number(g.grade || 9), 1, 10)` as computed in every handler. -/
def gradeOf (g : GradeEntry) : ℚ := clamp (jsOrQ g.grade 9) 1 10

/-- `Math.max(0, Number(g.prob || 0))` — the probability clamped
non-negative. -/
def clampedProb (g : GradeEntry) : ℚ := max 0 (jsOrQ g.prob 0)

/-- The `probSum` accumulator of the first price handler. -/
def probSumOf (d : List GradeEntry) : ℚ := (d.map clampedProb).sum

/-- `if (probSum <= 0) probSum = 1` from the first price handler. -/
def probSumFixed (d : List GradeEntry) : ℚ :=
  if probSumOf d ≤ 0 then 1 else probSumOf d

/-- `evGraded` of the first price handler (api/price.js lines 215-224):
probabilities are divided by their sum. -/
def evGradedNormalized (d : List GradeEntry) (raw : ℚ) : ℚ :=
  (d.map (fun g =>
    (clampedProb g / probSumFixed d) * (raw * upliftMultiplier (gradeOf g)))).sum

/-- `evGraded` of the later handlers (api/price.js lines 527-532, part_003,
part_004): the clamped probabilities are used without renormalization. -/
def evGradedFast (d : List GradeEntry) (raw : ℚ) : ℚ :=
  (d.map (fun g => clampedProb g * (raw * upliftMultiplier (gradeOf g)))).sum

/-- The default grade distribution substituted when the request has none. -/
def defaultDistribution : List GradeEntry :=
  [⟨some 8.5, some 0.2⟩, ⟨some 9.0, some 0.5⟩,
   ⟨some 9.5, some 0.25⟩, ⟨some 10.0, some 0.05⟩]

/-- `Array.isArray(distribution) && distribution.length ? distribution :
default`. -/
def distOr (o : Option (List GradeEntry)) : List GradeEntry :=
  match o with
  | some l => if l = [] then defaultDistribution else l
  | none => defaultDistribution

theorem list_sum_map_div {α : Type} (l : List α) (f : α → ℚ) (c : ℚ) :
    (l.map (fun a => f a / c)).sum = (l.map f).sum / c := by
  induction l with
  | nil => simp
  | cons a t ih => simp [ih, add_div]

/-- C4 counterexample: the later handlers do not renormalize.  For the
distribution `[{grade: 9, prob: 2}]` and raw price 100, the claim's
normalized expected value is `1 * 100 * 1.35 = 135`, but the code computes
270, and the probabilities actually used sum to 2, not 1. -/
theorem c4_no_renormalization :
    evGradedFast [⟨some 9, some 2⟩] 100 = 270 ∧
    probSumOf [⟨some 9, some 2⟩] = 2 ∧ (270 : ℚ) ≠ 135 := by
  refine ⟨?_, ?_, by norm_num⟩ <;>
    norm_num [evGradedFast, probSumOf, clampedProb, gradeOf, jsOrQ, clamp,
      upliftMultiplier]

/-- C4 amended: only the first price-handler iteration renormalizes; there,
for any distribution with positive clamped total, the normalized
probabilities sum to exactly 1 and the expected value equals the
unnormalized sum divided by the total.  Every probability is clamped
non-negative in all iterations. -/
theorem c4_amended_normalization (d : List GradeEntry) (raw : ℚ)
    (h : 0 < probSumOf d) :
    (d.map (fun g => clampedProb g / probSumFixed d)).sum = 1 ∧
    (∀ g ∈ d, 0 ≤ clampedProb g) ∧
    evGradedNormalized d raw * probSumOf d = evGradedFast d raw := by
  have hfix : probSumFixed d = probSumOf d := if_neg (not_le.mpr h)
  refine ⟨?_, fun g _ => le_max_left 0 _, ?_⟩
  · rw [hfix, list_sum_map_div d clampedProb (probSumOf d)]
    exact div_self (ne_of_gt h)
  · have hrw : evGradedNormalized d raw = evGradedFast d raw / probSumOf d := by
      unfold evGradedNormalized evGradedFast
      rw [hfix, ← list_sum_map_div d
        (fun g => clampedProb g * (raw * upliftMultiplier (gradeOf g)))
        (probSumOf d)]
      refine congrArg List.sum (List.map_congr_left fun g _ => ?_)
      rw [div_mul_eq_mul_div]
    rw [hrw, div_mul_cancel₀ _ (ne_of_gt h)]

/-- Witness for the C4 amended theorem at a concrete distribution. -/
theorem c4_amended_witness :
    (([⟨some 9, some (1/2)⟩, ⟨some 8, some (1/2)⟩] : List GradeEntry).map
      (fun g => clampedProb g /
        probSumFixed [⟨some 9, some (1/2)⟩, ⟨some 8, some (1/2)⟩])).sum = 1 ∧
    evGradedNormalized [⟨some 9, some (1/2)⟩, ⟨some 8, some (1/2)⟩] 100 *
      probSumOf [⟨some 9, some (1/2)⟩, ⟨some 8, some (1/2)⟩] =
      evGradedFast [⟨some 9, some (1/2)⟩, ⟨some 8, some (1/2)⟩] 100 := by
  obtain ⟨h1, _, h3⟩ := c4_amended_normalization
    [⟨some 9, some (1/2)⟩, ⟨some 8, some (1/2)⟩] 100
    (by norm_num [probSumOf, clampedProb, jsOrQ])
  exact ⟨h1, h3⟩

/-! ### FX fetch and the price-handler tail after a live price was found.
`getFX` models api/price.js lines 36-53 (and the equivalent logic at lines
283-316 and part_003 lines 48-70): any fetch failure, non-OK HTTP status or
missing/zero parsed rate raises, and the handler's catch turns the raise
into a 500 response.  `getFXFallback` models part_004 lines 44-83, which
wraps the same logic in a try/catch returning hard-coded fallback rates.
The external fetch is modelled by the `FXFetch` argument. -/

/-- Outcome of the ECB fetch: a network/timeout rejection, or a response
with its HTTP ok-flag and the two regex-extracted rates. -/
inductive FXFetch where
  | netErr
  | resp (ok : Bool) (gbp usd : Option ℚ)
deriving DecidableEq

/-- Throwing `getFX`: models the function as an `Except`, the `.error` case
standing for the thrown exception.  A rate of 0 is falsy in `!GBP || !USD`
and also raises. -/
def getFX : FXFetch → Except Str Rates
  | .netErr => .error "fetch failed".data
  | .resp ok gbp usd =>
    if ¬ok then .error "FX failed (HTTP)".data
    else
      match gbp, usd with
      | some g, some u =>
        if g = 0 ∨ u = 0 then .error "FX failed (missing GBP/USD rates)".data
        else .ok ⟨g, u⟩
      | _, _ => .error "FX failed (missing GBP/USD rates)".data

/-- part_004's hard-coded fallback `{ base: "EUR", GBP: 0.86, USD: 1.08 }`. -/
def fallbackRates : Rates := ⟨0.86, 1.08⟩

/-- part_004's `getFX`: identical checks, but every failure is caught and
the fallback rates are returned. -/
def getFXFallback : FXFetch → Rates
  | .netErr => fallbackRates
  | .resp ok gbp usd =>
    if ¬ok then fallbackRates
    else
      match gbp, usd with
      | some g, some u => if g = 0 ∨ u = 0 then fallbackRates else ⟨g, u⟩
      | _, _ => fallbackRates

/-- The live price found upstream: `{ raw, currency }`. -/
structure LiveVal where
  raw : ℚ
  currency : Str

/-- `isFinite(Number(feeGBP)) ? Number(feeGBP) : 15`. -/
def feeOf : Option JSNum → ℚ
  | some (.fin q) => q
  | _ => 15

/-- One entry of the `converted` object: `{ raw, evGraded, fee }`. -/
structure ConvEntry where
  raw : Option JSNum
  evGraded : Option JSNum
  fee : Option JSNum
deriving DecidableEq

/-- The body of the `for (const ccy of ["GBP","EUR","USD"])` loop. -/
def convEntry (liveRaw ev fee : ℚ) (cur ccy : Str) (fx : Rates) : ConvEntry :=
  ⟨convert (some (.fin liveRaw)) cur ccy fx,
   convert (some (.fin ev)) cur ccy fx,
   convert (some (.fin fee)) "GBP".data ccy fx⟩

/-- The success payload of the price endpoint (claim-relevant fields). -/
structure PriceOut where
  raw : ℚ
  currency : Str
  evGraded : ℚ
  convGBP : ConvEntry
  convEUR : ConvEntry
  convUSD : ConvEntry

/-- A price response: a 200 payload or an error status with message. -/
inductive PriceResp where
  | ok (o : PriceOut)
  | err (status : ℕ) (msg : Str)

/-- The price handler after a live price was found (api/price.js lines
516-558, part_003 lines 331-373): compute `evGraded`, call the throwing
`getFX`, build `converted`; a thrown FX error propagates to the catch
block, which responds with status 500. -/
def priceHandlerTail (live : LiveVal) (distribution : Option (List GradeEntry))
    (feeGBP : Option JSNum) (fxf : FXFetch) : PriceResp :=
  let dist := distOr distribution
  let ev := evGradedFast dist live.raw
  match getFX fxf with
  | .error e => .err 500 e
  | .ok fx =>
    let fee := feeOf feeGBP
    .ok { raw := live.raw, currency := live.currency, evGraded := ev,
          convGBP := convEntry live.raw ev fee live.currency "GBP".data fx,
          convEUR := convEntry live.raw ev fee live.currency "EUR".data fx,
          convUSD := convEntry live.raw ev fee live.currency "USD".data fx }

/-- The part_004 handler after a live price was found (lines 229-267): its
`getFX` never throws, so the request always succeeds, with `converted`
filled from the (possibly fallback) rates. -/
def priceHandlerTailFB (live : LiveVal) (distribution : Option (List GradeEntry))
    (feeGBP : Option JSNum) (fxf : FXFetch) : PriceResp :=
  let dist := distOr distribution
  let ev := evGradedFast dist live.raw
  let fx := getFXFallback fxf
  let fee := feeOf feeGBP
  .ok { raw := live.raw, currency := live.currency, evGraded := ev,
        convGBP := convEntry live.raw ev fee live.currency "GBP".data fx,
        convEUR := convEntry live.raw ev fee live.currency "EUR".data fx,
        convUSD := convEntry live.raw ev fee live.currency "USD".data fx }

theorem getFXFallback_of_error (fxf : FXFetch) (e : Str)
    (h : getFX fxf = .error e) : getFXFallback fxf = fallbackRates := by
  cases fxf with
  | netErr => rfl
  | resp ok gbp usd =>
    cases ok with
    | false => simp [getFXFallback]
    | true =>
      cases gbp with
      | none => simp [getFXFallback]
      | some g =>
        cases usd with
        | none => simp [getFXFallback]
        | some u =>
          by_cases hz : g = 0 ∨ u = 0
          · simp [getFXFallback, hz]
          · simp [getFX, hz] at h

/-- C3 counterexample: an FX network failure during a price request in
which a live price was found produces a 500 error response — the request
does not complete successfully and `raw`/`evGraded` are not returned. -/
theorem c3_fx_failure_gives_500 :
    priceHandlerTail ⟨100, "USD".data⟩ none none .netErr =
      .err 500 "fetch failed".data := rfl

/-- C3 amended: in the handlers whose `getFX` throws (api/price.js both
iterations, part_003), an FX failure after a live price is found yields a
500 error response rather than a degraded success; only the part_004
handler survives an FX failure, and it does so by substituting the
hard-coded fallback rates into `converted` (not by omitting it). -/
theorem c3_amended_fx_behavior (live : LiveVal)
    (distribution : Option (List GradeEntry)) (feeGBP : Option JSNum)
    (fxf : FXFetch) (e : Str) (h : getFX fxf = .error e) :
    priceHandlerTail live distribution feeGBP fxf = .err 500 e ∧
    getFXFallback fxf = fallbackRates ∧
    ∃ o, priceHandlerTailFB live distribution feeGBP fxf = .ok o ∧
      o.raw = live.raw ∧
      o.evGraded = evGradedFast (distOr distribution) live.raw ∧
      o.convGBP = convEntry live.raw o.evGraded (feeOf feeGBP) live.currency
        "GBP".data fallbackRates := by
  refine ⟨?_, getFXFallback_of_error fxf e h, ?_⟩
  · unfold priceHandlerTail
    rw [h]
  · refine ⟨_, rfl, rfl, rfl, ?_⟩
    simp only [priceHandlerTailFB, getFXFallback_of_error fxf e h]

/-- Witness for the C3 amended theorem at a concrete failing fetch. -/
theorem c3_amended_witness :
    priceHandlerTail ⟨100, "USD".data⟩ none none (.resp false none none) =
      .err 500 "FX failed (HTTP)".data ∧
    getFXFallback (.resp false none none) = fallbackRates := by
  obtain ⟨h1, h2, _⟩ := c3_amended_fx_behavior ⟨100, "USD".data⟩ none none
    (.resp false none none) "FX failed (HTTP)".data rfl
  exact ⟨h1, h2⟩

/-! ### Variant price selection.
`pickVariantPrice` is part_003 lines 161-207; `pickPriceFromCardItem` is
api/price.js lines 374-394.  Price fields are modelled as optional finite
numbers, matching the documented payload shapes.  The source loop keeps
`best.variant` only for debug output; the debug write is not modelled, so
the accumulator tracks the price alone. -/

/-- A pricing variant `{ printing, condition, price, ... }`. -/
structure Variant where
  printing : Option Str
  condition : Option Str
  price : Option ℚ
  avgPrice : Option ℚ
  marketPrice : Option ℚ
  avg : Option ℚ
  mid : Option ℚ
  low : Option ℚ
deriving DecidableEq

/-- The `norm` helper of `pickVariantPrice`:
`String(s || "").toLowerCase()`. -/
def normS (o : Option Str) : Str := jsLower (jsOrStr o [])

/-- `isNM` from `pickVariantPrice`: accepts "Near Mint", "near-mint",
"NM". -/
def isNM (v : Variant) : Bool :=
  let c := normS v.condition
  jsIncludes c "near".data || c == "nm".data || jsIncludes c "near-mint".data

/-- `printingOk` from `pickVariantPrice`. -/
def printingOk (wantPrinting : Str) (v : Variant) : Bool :=
  normS v.printing == normS (some wantPrinting)

/-- `priceOf` from `pickVariantPrice`:
`Number(v?.price ?? v?.avgPrice ?? v?.marketPrice ?? v?.mid ?? v?.low)`. -/
def priceOfVariant (v : Variant) : Option ℚ :=
  v.price <|> v.avgPrice <|> v.marketPrice <|> v.mid <|> v.low

/-- The best-tracking loop `if (!best || p > best.price) best = ...`,
applied to the finite prices of a bucket, in order. -/
def jsMaxFold : Option ℚ → List ℚ → Option ℚ
  | acc, [] => acc
  | acc, p :: ps =>
    jsMaxFold (some (match acc with
      | none => p
      | some b => if p > b then p else b)) ps

/-- The price selected from one bucket of `pickVariantPrice`. -/
def bestPriceIn (b : List Variant) : Option ℚ :=
  jsMaxFold none (b.filterMap priceOfVariant)

/-- A card item returned by the pricing catalog: name/set text fields,
possible direct price fields, and a possible variant list (`none` models a
missing or non-array `variants`). -/
structure Item where
  name : Option Str
  set : Option Str
  setName : Option Str
  marketPrice : Option ℚ
  price : Option ℚ
  avg : Option ℚ
  mid : Option ℚ
  low : Option ℚ
  eur : Option ℚ
  gbp : Option ℚ
  usd : Option ℚ
  variants : Option (List Variant)
deriving DecidableEq

/-- `pickVariantPrice(cardItem, wantPrinting)` (part_003 lines 161-207):
buckets `[printing ∧ NM, printing, all]`, first bucket holding a finite
price wins. -/
def pickVariantPrice (cardItem : Item) (wantPrinting : Str) : Option ℚ :=
  match cardItem.variants with
  | none => none
  | some variants =>
    if variants = [] then none
    else
      let b1 := variants.filter (fun v => printingOk wantPrinting v && isNM v)
      let b2 := variants.filter (printingOk wantPrinting)
      match bestPriceIn b1 with
      | some p => some p
      | none =>
        match bestPriceIn b2 with
        | some p => some p
        | none => bestPriceIn variants

/-- The variant-price cascade of `pickPriceFromCardItem` (api/price.js):
`Number(v?.marketPrice ?? v?.price ?? v?.avg ?? v?.mid ?? v?.low)`. -/
def priceOfVariantPJ (v : Variant) : Option ℚ :=
  v.marketPrice <|> v.price <|> v.avg <|> v.mid <|> v.low

/-- The numeric-accumulator loop `if (!best || p > best) best = p` of
`pickPriceFromCardItem`: here `best` is a number, so a held price of 0 is
falsy and the next finite price overwrites it unconditionally. -/
def jsMaxFoldNum : Option ℚ → List ℚ → Option ℚ
  | acc, [] => acc
  | acc, p :: ps =>
    jsMaxFoldNum (some (match acc with
      | none => p
      | some b => if b = 0 ∨ p > b then p else b)) ps

/-- `pickPriceFromCardItem(item)` (api/price.js lines 374-394): a direct
price field if present, else the best-price variant ("pick max price
variant" per the source comment; a best of 0 is falsy and is overwritten
by the next finite price). -/
def pickPriceFromCardItem (item : Item) : Option ℚ :=
  match item.marketPrice <|> item.price <|> item.avg <|> item.mid <|>
      item.low <|> item.eur <|> item.gbp <|> item.usd with
  | some d => some d
  | none =>
    match item.variants with
    | none => none
    | some variants =>
      if variants = [] then none
      else jsMaxFoldNum none (variants.filterMap priceOfVariantPJ)

/-- The list of finite prices in the tier that `pickVariantPrice` selects
from: the first of `[printing ∧ NM, printing, all]` with a finite price. -/
def tierPrices (cardItem : Item) (wantPrinting : Str) : List ℚ :=
  match cardItem.variants with
  | none => []
  | some variants =>
    let p1 := (variants.filter
      (fun v => printingOk wantPrinting v && isNM v)).filterMap priceOfVariant
    let p2 := (variants.filter (printingOk wantPrinting)).filterMap priceOfVariant
    let p3 := variants.filterMap priceOfVariant
    if p1 ≠ [] then p1 else if p2 ≠ [] then p2 else p3

theorem jsMaxFold_some (ps : List ℚ) : ∀ a : ℚ,
    jsMaxFold (some a) ps = some (ps.foldl max a) := by
  induction ps with
  | nil => intro a; rfl
  | cons p t ih =>
    intro a
    have harg : (if p > a then p else a) = max a p := by
      rcases le_or_lt p a with hle | hlt
      · rw [if_neg (not_lt.mpr hle), max_eq_left hle]
      · rw [if_pos hlt, max_eq_right (le_of_lt hlt)]
    simp only [jsMaxFold, harg, ih, List.foldl_cons]

theorem jsMaxFold_eq_max? (ps : List ℚ) : jsMaxFold none ps = ps.max? := by
  cases ps with
  | nil => rfl
  | cons p t =>
    simp only [jsMaxFold, jsMaxFold_some, List.max?_cons']

theorem bestPriceIn_eq_max? (b : List Variant) :
    bestPriceIn b = (b.filterMap priceOfVariant).max? :=
  jsMaxFold_eq_max? _

/-- A Near Mint "Normal" variant carrying only a `price` field. -/
def nmNormalVariant (p : ℚ) : Variant :=
  ⟨some "Normal".data, some "Near Mint".data, some p, none, none, none, none, none⟩

/-- An item whose variant list holds two Near Mint Normal variants priced
1 and 5. -/
def c2ItemEx : Item :=
  { name := none, set := none, setName := none, marketPrice := none,
    price := none, avg := none, mid := none, low := none, eur := none,
    gbp := none, usd := none,
    variants := some [nmNormalVariant 1, nmNormalVariant 5] }

/-- C2 counterexample: both variants sit in the top precedence tier
(printing and condition both match) with finite prices 1 and 5; the
selector returns 5, the highest price, not the lowest. -/
theorem c2_highest_not_lowest :
    pickVariantPrice c2ItemEx "Normal".data = some 5 ∧
    (some (5 : ℚ) : Option ℚ) ≠ some 1 := by
  constructor
  · decide
  · simp only [ne_eq, Option.some.injEq]
    norm_num

/-- C2 amended: within each precedence tier of `pickVariantPrice`
((printing exact AND Near-Mint condition), else (printing exact, any
condition), else (any variant)), the selector returns the highest finite
price of the first tier that has one. -/
theorem c2_amended_pick_is_max (cardItem : Item) (wantPrinting : Str) :
    pickVariantPrice cardItem wantPrinting =
      (tierPrices cardItem wantPrinting).max? := by
  rcases hV : cardItem.variants with _ | variants
  · simp [pickVariantPrice, tierPrices, hV]
  · by_cases hv : variants = []
    · subst hv
      simp [pickVariantPrice, tierPrices, hV]
    · simp only [pickVariantPrice, tierPrices, hV, if_neg hv, bestPriceIn_eq_max?]
      cases hp1 : (variants.filter
          fun v => printingOk wantPrinting v && isNM v).filterMap priceOfVariant with
      | cons a t => simp [List.max?_cons']
      | nil =>
        cases hp2 : (variants.filter
            (printingOk wantPrinting)).filterMap priceOfVariant with
        | cons a t => simp [List.max?_cons']
        | nil => simp

/-! ### JustTCG candidate selection (`justTCGSearch`, api/price.js lines
421-465).  The per-attempt selection — rank the returned items by the
name/set/variants score with a stable descending sort, take the first, and
extract its price via `pickPriceFromCardItem` — is embedded as
`justTCGSearchSelect`; the surrounding loop over query attempts and the
HTTP plumbing are not needed by the claims.  Note that no sealed-product
filtering of any kind appears in the source. -/

/-- The request card fields read by the selection step. -/
structure CardReq where
  name : Option Str
  set : Option Str

/-- `Array.isArray(it?.variants) && it.variants.length`. -/
def hasVariants (it : Item) : Bool :=
  match it.variants with
  | some vs => !vs.isEmpty
  | none => false

/-- The `score` closure of `justTCGSearch` (api/price.js lines 450-459):
`+5` if the wanted name is contained in the item name, `+2` if the wanted
set is contained in the item set, `+1` for a non-empty variant list. -/
def justTCGSearchScore (wantedName wantedSet : Str) (it : Item) : ℤ :=
  (if wantedName ≠ [] ∧ jsIncludes (jsLower (jsOrStr it.name [])) wantedName
    then 5 else 0) +
  (if wantedSet ≠ [] ∧
      jsIncludes (jsLower (jsOrStr it.set (jsOrStr it.setName []))) wantedSet
    then 2 else 0) +
  (if hasVariants it then 1 else 0)

/-- The selection body of one `justTCGSearch` attempt (api/price.js lines
444-465): empty lists contribute nothing, otherwise the stable
score-descending sort is taken and the first item's price extracted. -/
def justTCGSearchSelect (card : CardReq) (list : List Item) : Option ℚ :=
  if list = [] then none
  else
    let wantedName := jsLower (jsOrStr card.name [])
    let wantedSet := jsLower (jsOrStr card.set [])
    let ranked := sortByKeyDesc (justTCGSearchScore wantedName wantedSet) list
    match ranked.head? with
    | none => none
    | some picked => pickPriceFromCardItem picked

/-- A single card named "Charizard" with a direct price of 10. -/
def singleCardEx : Item :=
  { name := some "Charizard".data, set := none, setName := none,
    marketPrice := none, price := some 10, avg := none, mid := none,
    low := none, eur := none, gbp := none, usd := none, variants := none }

/-- A sealed product named "Charizard Booster Box" whose single variant is
priced 500. -/
def boosterBoxEx : Item :=
  { name := some "Charizard Booster Box".data, set := none, setName := none,
    marketPrice := none, price := none, avg := none, mid := none,
    low := none, eur := none, gbp := none, usd := none,
    variants := some [⟨none, none, none, none, some 500, none, none, none⟩] }

/-- C1 counterexample: for the request name "Charizard", the list holding
the "Charizard Booster Box" item (score 6: name contains + has variants)
and the single card (score 5, valid price 10) selects the booster box and
returns its price 500 — no sealed-product filter exists in the code. -/
theorem c1_booster_box_price_selected :
    justTCGSearchSelect ⟨some "Charizard".data, none⟩
      [singleCardEx, boosterBoxEx] = some 500 ∧
    boosterBoxEx.name = some "Charizard Booster Box".data ∧
    pickPriceFromCardItem singleCardEx = some 10 := by
  refine ⟨by decide, rfl, by decide⟩

/-- C1 amended: the selection applies no sealed-product exclusion — it is
determined purely by the name/set/variants score (with stable ordering), so
any item, sealed or not, that strictly out-scores every other item is
selected and its price returned. -/
theorem c1_amended_top_scorer_selected (card : CardReq) (x : Item)
    (rest : List Item)
    (h : ∀ y ∈ rest,
      justTCGSearchScore (jsLower (jsOrStr card.name []))
        (jsLower (jsOrStr card.set [])) y <
      justTCGSearchScore (jsLower (jsOrStr card.name []))
        (jsLower (jsOrStr card.set [])) x) :
    justTCGSearchSelect card (x :: rest) = pickPriceFromCardItem x := by
  have hh := sortByKeyDesc_head_dominant
    (justTCGSearchScore (jsLower (jsOrStr card.name []))
      (jsLower (jsOrStr card.set []))) x rest h
  simp [justTCGSearchSelect, hh]

/-- Witness for the C1 amended theorem: the booster box listed first and
strictly out-scoring the single card is selected. -/
theorem c1_amended_witness :
    justTCGSearchSelect ⟨some "Charizard".data, none⟩
      [boosterBoxEx, singleCardEx] = pickPriceFromCardItem boosterBoxEx :=
  c1_amended_top_scorer_selected ⟨some "Charizard".data, none⟩ boosterBoxEx
    [singleCardEx] (by intro y hy; simp at hy; subst hy; decide)

/-! ### Set lookup (`scoreSetMatch` and `justTCGGetSetId`, part_003 lines
122-159).  The sets-catalog fetch is modelled by the `respOk`/`list`
arguments. -/

/-- A set object returned by the sets catalog. -/
structure SetObj where
  name : Option Str
  id : Option Str
deriving DecidableEq

/-- The token-overlap count: tokens of `n` that occur among tokens of
`w`. -/
def tokenHits (n w : Str) : ℕ :=
  (wsTokens n).countP (fun t => (wsTokens w).contains t)

/-- `scoreSetMatch(setObj, wantedSetName)` (part_003 lines 122-134):
exact lower-cased match 10, substring containment either direction 6, else
the whitespace-token overlap count. -/
def scoreSetMatch (setObj : SetObj) (wantedSetName : Str) : ℤ :=
  let n := jsLower (jsOrStr setObj.name [])
  let w := jsLower wantedSetName
  if w = [] then 0
  else if n = w then 10
  else if jsIncludes n w || jsIncludes w n then 6
  else (tokenHits n w : ℤ)

/-- `justTCGGetSetId` (part_003 lines 136-159): null for a falsy set name,
missing API key, failed or empty response; otherwise the id of the first
element of the stable score-descending sort, with a falsy id mapped to
null.  The fetch is passed as `respOk`/`list`. -/
def justTCGGetSetId (setName : Option Str) (apiKeyPresent respOk : Bool)
    (list : List SetObj) : Option Str :=
  match setName with
  | none => none
  | some sn =>
    if sn = [] then none
    else if ¬apiKeyPresent then none
    else if ¬respOk ∨ list = [] then none
    else
      let ranked := sortByKeyDesc (fun s => scoreSetMatch s sn) list
      match ranked.head? with
      | none => none
      | some s =>
        match s.id with
        | none => none
        | some i => if i = [] then none else some i

/-- C5 counterexample: with requested set name "alpha" and a single
returned set "beta" (score 0 — no exact match, no containment, no token
overlap), the lookup still returns that set's id instead of null. -/
theorem c5_zero_score_still_returned :
    justTCGGetSetId (some "alpha".data) true true
      [⟨some "beta".data, some "X".data⟩] = some "X".data ∧
    scoreSetMatch ⟨some "beta".data, some "X".data⟩ "alpha".data = 0 := by
  constructor <;> decide

/-- C5 amended: the lookup returns null when the set name is absent or
empty, the API key is missing, the response failed or listed no sets, or
the chosen set lacks an id; otherwise it returns the id of the top-ranked
set — exact lower-cased match scoring 10, substring containment either way
6 — even when the best score is zero.  A set strictly out-scoring all
others is the one chosen. -/
theorem c5_amended_set_lookup :
    (∀ apiKey respOk list, justTCGGetSetId none apiKey respOk list = none) ∧
    (∀ apiKey respOk list,
      justTCGGetSetId (some []) apiKey respOk list = none) ∧
    (∀ sn respOk list,
      justTCGGetSetId (some sn) false respOk list = none) ∧
    (∀ sn apiKey list,
      justTCGGetSetId (some sn) apiKey false list = none) ∧
    (∀ sn apiKey respOk,
      justTCGGetSetId (some sn) apiKey respOk [] = none) ∧
    (∀ s w, jsLower w ≠ [] → jsLower (jsOrStr s.name []) = jsLower w →
      scoreSetMatch s w = 10) ∧
    (∀ s w, jsLower w ≠ [] → jsLower (jsOrStr s.name []) ≠ jsLower w →
      (jsIncludes (jsLower (jsOrStr s.name [])) (jsLower w) ||
        jsIncludes (jsLower w) (jsLower (jsOrStr s.name []))) = true →
      scoreSetMatch s w = 6) ∧
    (∀ sn x rest, sn ≠ [] →
      (∀ y ∈ rest, scoreSetMatch y sn < scoreSetMatch x sn) →
      justTCGGetSetId (some sn) true true (x :: rest) =
        (match x.id with
         | none => none
         | some i => if i = [] then none else some i)) := by
  refine ⟨fun _ _ _ => rfl, fun a r l => by simp [justTCGGetSetId],
    ?_, ?_, ?_, ?_, ?_, ?_⟩
  · intro sn respOk list
    by_cases h : sn = [] <;> simp [justTCGGetSetId, h]
  · intro sn apiKey list
    cases apiKey <;> by_cases h : sn = [] <;> simp [justTCGGetSetId, h]
  · intro sn apiKey respOk
    cases apiKey <;> cases respOk <;> by_cases h : sn = [] <;>
      simp [justTCGGetSetId, h]
  · intro s w hw hn
    simp [scoreSetMatch, hw, hn]
  · intro s w hw hn hincl
    simp [scoreSetMatch, hw, hn, hincl]
  · intro sn x rest hsn hdom
    have hh := sortByKeyDesc_head_dominant (fun s => scoreSetMatch s sn)
      x rest hdom
    simp [justTCGGetSetId, hsn, hh]

/-- Witness for the C5 amended theorem at concrete inputs. -/
theorem c5_amended_witness :
    justTCGGetSetId none true true [] = none ∧
    justTCGGetSetId (some "alpha".data) true true
      [⟨some "beta".data, some "X".data⟩] = some "X".data ∧
    scoreSetMatch ⟨some "Base Set".data, none⟩ "base set".data = 10 := by
  obtain ⟨h1, _, _, _, _, h10, _, hsel⟩ := c5_amended_set_lookup
  refine ⟨h1 true true [], ?_, h10 ⟨some "Base Set".data, none⟩
    "base set".data (by decide) (by decide)⟩
  have := hsel "alpha".data ⟨some "beta".data, some "X".data⟩ []
    (by decide) (by intro y hy; simp at hy)
  simpa using this

/-! ### Candidate scorer (`boostByMatch`).
Two iterations exist: api/identify.js lines 444-467 (also part_000 lines
320-339, part_001 lines 351-372) with default base 0.5 and number bonus
0.18, and api/identify.js lines 1037-1060 (the fast pipeline) with default
base 0.55 and number bonus 0.20.  The sequential `score += ...` updates
are written as one sum; the addends appear in source order. -/

/-- The extracted identity fields read by the scorer and resolver. -/
structure Extracted where
  game : Str
  name : Option Str
  set : Option Str
  setCode : Option Str
  collectorNumber : Option Str
  variant : Option Str

/-- A candidate's fields read by the scorer. -/
structure Candidate where
  set : Option Str
  setCode : Option Str
  collectorNumber : Option Str
  variant : Option Str
  confidence : Option ℚ

/-- `x ? String(x).toLowerCase() : null` for an optional string. -/
def truthyLower (o : Option Str) : Option Str :=
  match o with
  | none => none
  | some s => if s = [] then none else some (jsLower s)

/-- `x ? String(normalizeCollectorNumber(x)).toLowerCase() : null` — note
`String(null)` is the literal string "null" when normalization nulls a
whitespace-only number, and the result can be the empty string (e.g. a
"/108" number normalizes to ""); the scorer's `exNum && cNum` guard
re-checks that truthiness, see `numHit`. -/
def truthyNormLower (o : Option Str) : Option Str :=
  match o with
  | none => none
  | some s =>
    if s = [] then none
    else some (jsLower (jsStrOfOptStr (normalizeCollectorNumber (some s))))

/-- `exSetCode && cSetCode && exSetCode === cSetCode`. -/
def setCodeHit (ex : Extracted) (cand : Candidate) : Bool :=
  match truthyLower ex.setCode, truthyLower cand.setCode with
  | some a, some b => a == b
  | _, _ => false

/-- `exNum && cNum && exNum === cNum`: both normalized numbers must be
truthy strings — non-null and non-empty — before the equality counts, so
numbers that normalize to "" (such as "/108") earn no bonus. -/
def numHit (ex : Extracted) (cand : Candidate) : Bool :=
  match truthyNormLower ex.collectorNumber,
      truthyNormLower cand.collectorNumber with
  | some a, some b => !a.isEmpty && !b.isEmpty && a == b
  | _, _ => false

/-- `exSet && cSet && cSet.includes(exSet)`. -/
def setSubHit (ex : Extracted) (cand : Candidate) : Bool :=
  match truthyLower ex.set, truthyLower cand.set with
  | some e, some c => jsIncludes c e
  | _, _ => false

/-- `exVar && cVar && cVar.includes(exVar)`. -/
def varSubHit (ex : Extracted) (cand : Candidate) : Bool :=
  match truthyLower ex.variant, truthyLower cand.variant with
  | some e, some c => jsIncludes c e
  | _, _ => false

/-- The pre-clamp score of `boostByMatch` (identify.js lines 444-465). -/
def preBoost (ex : Extracted) (cand : Candidate) : ℚ :=
  jsOrQ cand.confidence 0.5 +
  (if setCodeHit ex cand then 0.18 else 0) +
  (if numHit ex cand then 0.18 else 0) +
  (if setSubHit ex cand then 0.10 else 0) +
  (if varSubHit ex cand then 0.06 else 0)

/-- `boostByMatch` (identify.js lines 444-467):
`clamp(score, 0, 0.99)`. -/
def boostByMatch (ex : Extracted) (cand : Candidate) : ℚ :=
  clamp (preBoost ex cand) 0 0.99

/-- The pre-clamp score of the fast-pipeline `boostByMatch` (identify.js
lines 1037-1058): base default 0.55, number bonus 0.20. -/
def preBoostFast (ex : Extracted) (cand : Candidate) : ℚ :=
  jsOrQ cand.confidence 0.55 +
  (if setCodeHit ex cand then 0.18 else 0) +
  (if numHit ex cand then 0.20 else 0) +
  (if setSubHit ex cand then 0.10 else 0) +
  (if varSubHit ex cand then 0.06 else 0)

/-- The fast-pipeline `boostByMatch` (identify.js lines 1037-1060). -/
def boostByMatchFast (ex : Extracted) (cand : Candidate) : ℚ :=
  clamp (preBoostFast ex cand) 0 0.99

theorem clamp_nonneg (x : ℚ) : 0 ≤ clamp x 0 0.99 := le_max_left 0 _

theorem clamp_le_ceiling (x : ℚ) : clamp x 0 0.99 ≤ 0.99 :=
  max_le (by norm_num) (min_le_left _ _)

theorem clamp_mono {x y : ℚ} (h : x ≤ y) : clamp x 0 0.99 ≤ clamp y 0 0.99 :=
  max_le_max le_rfl (min_le_min le_rfl h)

theorem clamp_strict_iff {x d : ℚ} (hd : 0 < d) :
    clamp x 0 0.99 < clamp (x + d) 0 0.99 ↔ (x < 0.99 ∧ 0 < x + d) := by
  constructor
  · intro hlt
    constructor
    · by_contra h99
      push_neg at h99
      have e1 : clamp x 0 0.99 = 0.99 := by
        unfold clamp
        rw [min_eq_left h99, max_eq_right (by norm_num)]
      have e2 : clamp (x + d) 0 0.99 = 0.99 := by
        unfold clamp
        rw [min_eq_left (by linarith), max_eq_right (by norm_num)]
      rw [e1, e2] at hlt
      exact lt_irrefl _ hlt
    · by_contra hneg
      push_neg at hneg
      have e2 : clamp (x + d) 0 0.99 = 0 := by
        unfold clamp
        rw [min_eq_right (by linarith), max_eq_left hneg]
      rw [e2] at hlt
      exact absurd hlt (not_lt.mpr (le_max_left 0 _))
  · rintro ⟨h1, h2⟩
    have hx : clamp x 0 0.99 = max 0 x := by
      unfold clamp
      rw [min_eq_right (le_of_lt h1)]
    rcases le_or_lt 0.99 (x + d) with hge | hlt2
    · have e2 : clamp (x + d) 0 0.99 = 0.99 := by
        unfold clamp
        rw [min_eq_left hge, max_eq_right (by norm_num)]
      rw [hx, e2]
      exact max_lt (by norm_num) h1
    · have e2 : clamp (x + d) 0 0.99 = x + d := by
        unfold clamp
        rw [min_eq_right (le_of_lt hlt2), max_eq_right (le_of_lt h2)]
      rw [hx, e2]
      exact max_lt h2 (by linarith)

theorem numHit_setCode_irrel (ex : Extracted) (c : Candidate) (s : Option Str) :
    numHit ex {c with setCode := s} = numHit ex c := rfl

theorem setSubHit_setCode_irrel (ex : Extracted) (c : Candidate) (s : Option Str) :
    setSubHit ex {c with setCode := s} = setSubHit ex c := rfl

theorem varSubHit_setCode_irrel (ex : Extracted) (c : Candidate) (s : Option Str) :
    varSubHit ex {c with setCode := s} = varSubHit ex c := rfl

/-- An identity carrying a set code and a collector number. -/
def exC6 : Extracted :=
  ⟨"pokemon".data, none, none, some "abc".data, some "1".data, none⟩

/-- A candidate with matching collector number and base confidence 0.9,
without a set code. -/
def candC6without : Candidate :=
  { set := none, setCode := none, collectorNumber := some "1".data,
    variant := none, confidence := some 0.9 }

/-- The same candidate with the matching set code added. -/
def candC6with : Candidate := { candC6without with setCode := some "abc".data }

/-- C6 counterexample: at the 0.99 clamp ceiling, adding a matching set
code does not strictly increase the score — both candidates score exactly
0.99. -/
theorem c6_clamp_breaks_strictness :
    boostByMatch exC6 candC6with = 0.99 ∧
    boostByMatch exC6 candC6without = 0.99 := by
  constructor <;>
    norm_num [boostByMatch, preBoost, jsOrQ, clamp,
      show setCodeHit exC6 candC6with = true from by decide,
      show setCodeHit exC6 candC6without = false from by decide,
      show numHit exC6 candC6with = true from by decide,
      show numHit exC6 candC6without = true from by decide,
      show setSubHit exC6 candC6with = false from by decide,
      show setSubHit exC6 candC6without = false from by decide,
      show varSubHit exC6 candC6with = false from by decide,
      show varSubHit exC6 candC6without = false from by decide,
      show candC6with.confidence = some (0.9 : ℚ) from rfl,
      show candC6without.confidence = some (0.9 : ℚ) from rfl]

/-- C6 amended: adding a matching set code to an otherwise-equal candidate
never decreases the score, and strictly increases it if and only if the
candidate's pre-clamp score without the bonus is below 0.99 and above
−0.18 — outside that band the 0.99 ceiling or the 0 floor erases the
bonus.  The same holds for the fast-pipeline scorer. -/
theorem c6_amended_monotonicity (ex : Extracted) (c : Candidate) (sc : Str)
    (hsc : setCodeHit ex {c with setCode := some sc} = true)
    (hc : setCodeHit ex c = false) :
    (boostByMatch ex c ≤ boostByMatch ex {c with setCode := some sc} ∧
      (boostByMatch ex c < boostByMatch ex {c with setCode := some sc} ↔
        (preBoost ex c < 0.99 ∧ 0 < preBoost ex c + 0.18))) ∧
    (boostByMatchFast ex c ≤ boostByMatchFast ex {c with setCode := some sc} ∧
      (boostByMatchFast ex c < boostByMatchFast ex {c with setCode := some sc} ↔
        (preBoostFast ex c < 0.99 ∧ 0 < preBoostFast ex c + 0.18))) := by
  have hconf : ({c with setCode := some sc} : Candidate).confidence =
      c.confidence := rfl
  have hpre : preBoost ex {c with setCode := some sc} = preBoost ex c + 0.18 := by
    simp [preBoost, hsc, hc, numHit_setCode_irrel, setSubHit_setCode_irrel,
      varSubHit_setCode_irrel, hconf]
    ring
  have hpreF : preBoostFast ex {c with setCode := some sc} =
      preBoostFast ex c + 0.18 := by
    simp [preBoostFast, hsc, hc, numHit_setCode_irrel,
      setSubHit_setCode_irrel, varSubHit_setCode_irrel, hconf]
    ring
  refine ⟨⟨?_, ?_⟩, ⟨?_, ?_⟩⟩
  · unfold boostByMatch
    rw [hpre]
    exact clamp_mono (by linarith)
  · unfold boostByMatch
    rw [hpre]
    exact clamp_strict_iff (by norm_num)
  · unfold boostByMatchFast
    rw [hpreF]
    exact clamp_mono (by linarith)
  · unfold boostByMatchFast
    rw [hpreF]
    exact clamp_strict_iff (by norm_num)

/-- A candidate with base confidence 0.6 and no other fields. -/
def candC6low : Candidate := ⟨none, none, none, none, some 0.6⟩

/-- Witness for the C6 amended theorem: below the ceiling the increase is
strict. -/
theorem c6_amended_witness :
    boostByMatch exC6 candC6low <
      boostByMatch exC6 {candC6low with setCode := some "abc".data} := by
  obtain ⟨⟨_, hstrict⟩, _⟩ := c6_amended_monotonicity exC6
    candC6low "abc".data (by decide) (by decide)
  refine hstrict.mpr ⟨?_, ?_⟩ <;>
    norm_num [preBoost, jsOrQ,
      show setCodeHit exC6 candC6low = false from by decide,
      show numHit exC6 candC6low = false from by decide,
      show setSubHit exC6 candC6low = false from by decide,
      show varSubHit exC6 candC6low = false from by decide,
      show candC6low.confidence = some (0.6 : ℚ) from rfl]

/-- C7 counterexample: the fast-pipeline scorer defaults an absent base
confidence to 0.55, not 0.5 — on a candidate with no provider confidence
and no matching attributes it returns 0.55 while the claim's formula gives
0.5 (the earlier scorer's value). -/
theorem c7_fast_default_055 :
    boostByMatchFast ⟨"unknown".data, none, none, none, none, none⟩
      ⟨none, none, none, none, none⟩ = 0.55 ∧
    boostByMatch ⟨"unknown".data, none, none, none, none, none⟩
      ⟨none, none, none, none, none⟩ = 0.5 ∧
    (0.55 : ℚ) ≠ 0.5 := by
  refine ⟨?_, ?_, by norm_num⟩ <;>
    norm_num [boostByMatchFast, boostByMatch, preBoostFast, preBoost, jsOrQ,
      clamp, setCodeHit, numHit, setSubHit, varSubHit, truthyLower,
      truthyNormLower]

/-- C7 amended: both scorers start from the candidate's provider
confidence — defaulting to 0.5 in the earlier iterations but 0.55 in the
fast pipeline when it is absent (or zero, both being falsy) — add +0.18
for a set-code match, +0.18 (earlier) or +0.20 (fast) for a collector
number match, +0.10 for a set-name substring match and +0.06 for a variant
substring match, and clamp the result into `[0, 0.99]`. -/
theorem c7_amended_boost_formula (ex : Extracted) (cand : Candidate) :
    0 ≤ boostByMatch ex cand ∧ boostByMatch ex cand ≤ 0.99 ∧
    0 ≤ boostByMatchFast ex cand ∧ boostByMatchFast ex cand ≤ 0.99 ∧
    boostByMatch ex cand = clamp (jsOrQ cand.confidence 0.5 +
      (if setCodeHit ex cand then 0.18 else 0) +
      (if numHit ex cand then 0.18 else 0) +
      (if setSubHit ex cand then 0.10 else 0) +
      (if varSubHit ex cand then 0.06 else 0)) 0 0.99 ∧
    boostByMatchFast ex cand = clamp (jsOrQ cand.confidence 0.55 +
      (if setCodeHit ex cand then 0.18 else 0) +
      (if numHit ex cand then 0.20 else 0) +
      (if setSubHit ex cand then 0.10 else 0) +
      (if varSubHit ex cand then 0.06 else 0)) 0 0.99 :=
  ⟨clamp_nonneg _, clamp_le_ceiling _, clamp_nonneg _, clamp_le_ceiling _,
    rfl, rfl⟩

/-! ### Resolver (`runResolvers`, identify.js lines 1063-1078, and the
ranking pipeline of both identify handlers, lines 511-517 and 1114-1118).
Adapters are passed as functions; the second component of the result
records which adapters the taken branch invokes. -/

/-- `runResolvers`: a known game queries only that game's adapter; an
unknown game queries all three concurrently and concatenates. -/
def runResolvers (adP adM adY : Extracted → List Candidate) (ex : Extracted) :
    List Candidate × List Str :=
  if ex.game = "pokemon".data then (adP ex, ["pokemon".data])
  else if ex.game = "mtg".data then (adM ex, ["mtg".data])
  else if ex.game = "yugioh".data then (adY ex, ["yugioh".data])
  else (adP ex ++ adM ex ++ adY ex,
    ["pokemon".data, "mtg".data, "yugioh".data])

/-- The handler's ranking pipeline: re-score every candidate with the
scorer, sort descending by confidence (stable), truncate to 6. -/
def rankCandidates (ex : Extracted) (cands : List Candidate) : List Candidate :=
  (sortByKeyDesc (fun (c : Candidate) => jsOrQ c.confidence 0)
    (cands.map (fun (c : Candidate) =>
      {c with confidence := some (boostByMatchFast ex c)}))).take 6

/-- C8: the resolver returns at most 6 candidates, sorted non-increasing
by confidence, and a known game invokes exactly that game's adapter (the
other adapters receive zero calls). -/
theorem c8_resolver_contract (adP adM adY : Extracted → List Candidate)
    (ex : Extracted) (cands : List Candidate) :
    (rankCandidates ex cands).length ≤ 6 ∧
    (rankCandidates ex cands).Pairwise
      (fun a b => jsOrQ b.confidence 0 ≤ jsOrQ a.confidence 0) ∧
    (ex.game = "pokemon".data →
      (runResolvers adP adM adY ex).2 = ["pokemon".data] ∧
      (runResolvers adP adM adY ex).1 = adP ex) ∧
    (ex.game = "mtg".data →
      (runResolvers adP adM adY ex).2 = ["mtg".data] ∧
      (runResolvers adP adM adY ex).1 = adM ex) ∧
    (ex.game = "yugioh".data →
      (runResolvers adP adM adY ex).2 = ["yugioh".data] ∧
      (runResolvers adP adM adY ex).1 = adY ex) := by
  refine ⟨?_, ?_, ?_, ?_, ?_⟩
  · rw [rankCandidates, List.length_take]
    exact min_le_left 6 _
  · exact ((sortByKeyDesc_sorted (fun (c : Candidate) => jsOrQ c.confidence 0)
      _).sublist (List.take_sublist 6 _))
  · intro h
    constructor <;> simp [runResolvers, h]
  · intro h
    constructor <;>
      simp [runResolvers, h,
        show ("mtg".data : Str) ≠ "pokemon".data from by decide]
  · intro h
    constructor <;>
      simp [runResolvers, h,
        show ("yugioh".data : Str) ≠ "pokemon".data from by decide,
        show ("yugioh".data : Str) ≠ "mtg".data from by decide]

/-- A candidate for the C8 witness. -/
def candC8 : Candidate := ⟨none, none, none, none, some 0.7⟩

/-- The extracted identity for the C8 witness: game known to be mtg. -/
def exC8 : Extracted := ⟨"mtg".data, none, none, none, none, none⟩

/-- Witness for C8 at concrete adapters and identity. -/
theorem c8_resolver_contract_witness :
    (rankCandidates exC8 [candC8]).length ≤ 6 ∧
    (runResolvers (fun _ => []) (fun _ => [candC8]) (fun _ => []) exC8).2 =
      ["mtg".data] ∧
    (runResolvers (fun _ => []) (fun _ => [candC8]) (fun _ => []) exC8).1 =
      [candC8] := by
  obtain ⟨h1, _, _, hm, _⟩ := c8_resolver_contract (fun _ => [])
    (fun _ => [candC8]) (fun _ => []) exC8 [candC8]
  obtain ⟨hm1, hm2⟩ := hm rfl
  exact ⟨h1, hm1, hm2⟩

end GrdLanding
